import Mathlib

/-!
Shallow embedding of the chunk/run/reconcile driver
(code/python/driver/run_tools_on_chunks.py) of metagenemark-2.

The driver splits each genome into chunks, runs external gene-prediction
tools on the chunk file, reconciles chunk-local prediction coordinates back
into parent-sequence coordinates, and aggregates one summary row per
(genome, tool, chunk size).

External effects are made explicit:
  - the file system is a finite map from paths to prediction-label lists
    (the scratch chunk FASTA is stored with an empty label list; only its
    existence matters);
  - the external predictors are an oracle function
    (tool, sequence-file) to Option (List Label): some = the tool succeeded
    and produced these raw labels in its prediction file, none = the tool
    exited non-zero (CalledProcessError);
  - warnings emitted by the logger are collected into a list of strings;
  - Python exceptions are the error side of Except, carrying the state at
    the raise point.

Components imported by the driver but not part of the sources here
(GenomeSplitter, get_value, read_labels_from_file, write_labels_to_file,
run_n_per_thread, PBS) are modelled from the specification; each such
definition says so in its doc comment.
-/

/-- A prediction label: sequence name plus left/right coordinates.
Strand and feature kind are not touched by the driver and are omitted. -/
structure Label where
  seqname : String
  left : Int
  right : Int
deriving DecidableEq, Repr

/-- One row of the run summary DataFrame: the driver appends
(Genome, Tool, Chunk Size, Predictions-path) per (tool, chunk). -/
structure RunRow where
  genome : String
  tool : String
  chunkSize : Nat
  predictions : String
deriving DecidableEq, Repr

/-- Python exceptions raised by the driver. -/
inductive RunErr where
  /-- get_value with required=True and the value absent (missing model path). -/
  | missingValue (key : String)
  /-- Unknown tool kind: raise NotImplementedError(). -/
  | notImplemented
  /-- A label seqname absent from the chunk-offset dict (Python KeyError). -/
  | keyError
  /-- ValueError for mismatched tools / dn-tools lengths in main. -/
  | valueError
  /-- pandas concat over a list containing a non-DataFrame (None). -/
  | pandasTypeError
  /-- pandas concat over an empty list of objects. -/
  | pandasNoObjects
deriving DecidableEq, Repr

/-- The keyword arguments threaded through the driver (a Python kwargs dict).
Absent keys are none. -/
structure Kwargs where
  skip_if_exists : Bool := false
  pf_mgm2_mod : Option String := none
  pf_mgm_mod : Option String := none
  dn_tools : Option (List String) := none
deriving DecidableEq, Repr

/-! ### File-system model -/

/-- File store: association list from path to prediction-label content.
A path is a file iff it has an entry; first entry wins on lookup. -/
abbrev FS := List (String × List Label)

/-- Read a file: first entry for the path, none when the path is absent. -/
def fs_read : FS → String → Option (List Label)
  | [], _ => none
  | (q, c) :: rest, p => if p = q then some c else fs_read rest p

/-- Write (create or replace) the file at a path. -/
def fs_write (fs : FS) (p : String) (c : List Label) : FS :=
  (p, c) :: fs.filter (fun e => e.1 != p)

/-- remove_p: delete the file at a path. -/
def fs_remove (fs : FS) (p : String) : FS :=
  fs.filter (fun e => e.1 != p)

/-- os.path.isfile. -/
def fs_isFile (fs : FS) (p : String) : Bool :=
  (fs_read fs p).isSome

/-! ### String splitting on the "_offset" separator -/

/-- The separator used by the driver to form and parse chunk identifiers. -/
def offset_sep : List Char := ['_', 'o', 'f', 'f', 's', 'e', 't']

/-- Characters strictly before the first occurrence of sep; the whole list
when sep does not occur. This is Python s.split(sep)[0]. -/
def split_first (sep : List Char) : List Char → List Char
  | [] => []
  | c :: rest => if sep.isPrefixOf (c :: rest) then [] else c :: split_first sep rest

/-- Whether sep occurs as a contiguous sublist. -/
def has_sub (sep : List Char) : List Char → Bool
  | [] => sep.isPrefixOf []
  | c :: rest => sep.isPrefixOf (c :: rest) || has_sub sep rest

/-- seqname.split("_offset")[0] as used at line 144 of the driver. -/
def strip_offset (s : String) : String := ⟨split_first offset_sep s.data⟩

/-- Characters strictly before the last occurrence of sep; the whole list
when sep does not occur. -/
def split_last (sep : List Char) : List Char → List Char
  | [] => []
  | c :: rest =>
    if sep.isPrefixOf (c :: rest) && !(has_sub sep rest) then []
    else c :: split_last sep rest

/-- Follows the claim and spec wording, for comparison with strip_offset:
remove the trailing "_offset<N>" suffix, i.e. keep everything strictly
before the last occurrence of "_offset". -/
def strip_trailing_offset (s : String) : String := ⟨split_last offset_sep s.data⟩

/-! ### Chunk identifiers and the offset mapping -/

/-- Modelled from the spec: GenomeSplitter (mg_general.genome_splitter is not
under src) forms the synthetic chunk identifier as
parent_seqname + "_offset" + offset. -/
def chunk_id (parent : String) (off : Nat) : String :=
  parent ++ "_offset" ++ toString off

/-- A splitter result is a list of (parent seqname, offset) chunks; this is
the dict comprehension of line 140 over gs.split_sequences_:
chunk identifier mapped to its offset. -/
def offsets_map (cs : List (String × Nat)) : List (String × Int) :=
  cs.map (fun pc => (chunk_id pc.1 pc.2, (pc.2 : Int)))

/-- Python dict lookup over an association list built left to right
(later bindings overwrite earlier ones). -/
def dict_lookup : List (String × Int) → String → Option Int
  | [], _ => none
  | (k2, v) :: rest, k =>
    match dict_lookup rest k with
    | some v2 => some v2
    | none => if k = k2 then some v else none

/-! ### Coordinate reconciliation (driver lines 139-145) -/

/-- The per-label body of the reconciliation loop: look the seqname up in
the offset dict (KeyError = none when absent), add the offset to both
coordinates, and replace the seqname by everything before the first
"_offset" occurrence. -/
def shift_label (off : Int) (l : Label) : Label :=
  { seqname := strip_offset l.seqname, left := l.left + off, right := l.right + off }

/-- Reconcile one label: none models the Python KeyError raised at line 142
when the seqname is not a key of the offset dict. -/
def reconcile_label (m : String → Option Int) (l : Label) : Option Label :=
  (m l.seqname).map (fun off => shift_label off l)

/-- The reconciliation loop over all labels of the raw prediction file:
each label is visited exactly once in order; the first missing seqname
aborts the loop with a KeyError. -/
def reconcile_labels (m : String → Option Int) : List Label → Option (List Label)
  | [] => some []
  | l :: rest =>
    match reconcile_label m l with
    | none => none
    | some l2 =>
      match reconcile_labels m rest with
      | none => none
      | some rest2 => some (l2 :: rest2)

/-! ### ToolRunner: run_tool_on_chunk (driver lines 85-108) -/

/-- External predictor behavior: for a tool name and a sequence file path,
some labels = the tool ran and wrote this raw prediction content,
none = the external process exited non-zero (CalledProcessError). -/
abbrev ToolOracle := String → String → Option (List Label)

/-- The warning logged at line 108 when a predictor fails. -/
def warn_msg (tool pf_sequences : String) : String :=
  "Could not run " ++ tool ++ " on " ++ pf_sequences

/-- run_tool_on_chunk. In source order: get_value of the required model
paths (modelled from the spec: get_value of mg_general.general is not under
src; with required=True an absent value is a configuration error and
raises), then the skip_if_exists short-circuit, then the five-way tool
dispatch; each of the five arms invokes its external predictor, abstracted
uniformly by the oracle, with CalledProcessError recovered into a logged
warning; an unknown tool raises NotImplementedError. On success the raw
prediction labels are written to pf_prediction. -/
def run_tool_on_chunk (tool pf_sequences pf_prediction : String) (kw : Kwargs)
    (oracle : ToolOracle) (fs : FS) : Except RunErr (FS × List String) :=
  if tool = "mgm2" ∧ kw.pf_mgm2_mod = none then .error (.missingValue "pf_mgm2_mod")
  else if tool = "mgm" ∧ kw.pf_mgm_mod = none then .error (.missingValue "pf_mgm_mod")
  else if kw.skip_if_exists && fs_isFile fs pf_prediction then .ok (fs, [])
  else if tool = "gms2" ∨ tool = "prodigal" ∨ tool = "mprodigal" ∨ tool = "mgm2" ∨ tool = "mgm" then
    match oracle tool pf_sequences with
    | some out => .ok (fs_write fs pf_prediction out, [])
    | none => .ok (fs, [warn_msg tool pf_sequences])
  else .error .notImplemented

/-! ### run_tools_on_chunk (driver lines 111-156) -/

/-- The per-(genome, chunk size) prediction path
pd-work/genome/dn_chunk/prediction.gff of lines 131-133. -/
def pred_path (pd_work g : String) (chunk : Nat) (dn : String) : String :=
  pd_work ++ "/" ++ g ++ "/" ++ dn ++ "_" ++ toString chunk ++ "/prediction.gff"

/-- Modelled from the spec: read_labels_from_file (mg_io.labels is not under
src). On the external-tool-failure path the spec states the combination
produces no prediction file and the run continues, so reading an absent
prediction file yields the empty label collection rather than raising. -/
def read_labels_from_file (fs : FS) (p : String) : List Label :=
  (fs_read fs p).getD []

/-- Modelled from the spec: write_labels_to_file (mg_io.labels is not under
src). The spec states a failed chunk/tool combination produces no
prediction file, so writing an empty label collection leaves the store
unchanged; a nonempty collection creates or replaces the file. -/
def write_labels_to_file (labels : List Label) (p : String) (fs : FS) : FS :=
  if labels.isEmpty then fs else fs_write fs p labels

/-- State threaded through the tool loop of run_tools_on_chunk:
file store, warnings logged so far, summary rows accumulated so far. -/
structure LoopSt where
  fs : FS
  ws : List String
  rows : List RunRow
deriving DecidableEq, Repr

/-- The body of the for-loop over zip(tools, dn_tools) (lines 128-152).
Each iteration invokes the tool, re-reads the prediction file, reconciles
its labels against the offset dict, rewrites the file, and appends one
summary row. An exception aborts the loop, carrying the state at the
raise point. -/
def tools_fold (oracle : ToolOracle) (kw : Kwargs) (pd_work g : String) (chunk : Nat)
    (offmap : List (String × Int)) (pf_chunks : String) :
    List (String × String) → LoopSt → Except (LoopSt × RunErr) LoopSt
  | [], s => .ok s
  | (t, dn) :: rest, s =>
    let pf_prediction := pred_path pd_work g chunk dn
    match run_tool_on_chunk t pf_chunks pf_prediction kw oracle s.fs with
    | .error e => .error (s, e)
    | .ok (fs1, ws1) =>
      let labels := read_labels_from_file fs1 pf_prediction
      match reconcile_labels (dict_lookup offmap) labels with
      | none => .error (⟨fs1, s.ws ++ ws1, s.rows⟩, .keyError)
      | some out =>
        tools_fold oracle kw pd_work g chunk offmap pf_chunks rest
          ⟨write_labels_to_file out pf_prediction fs1, s.ws ++ ws1,
            s.rows ++ [⟨g, t, chunk, pf_prediction⟩]⟩

/-- run_tools_on_chunk: split the genome (the splitter abstracts
GenomeSplitter, giving the (parent, offset) chunks for a genome name and
chunk size), write the chunk blob to the scratch file pf_chunks
(mkstemp_closed), loop over zip(tools, dn_tools), then remove_p the scratch
file and return the per-chunk DataFrame. remove_p is not in a finally
block: an exception inside the loop skips it. -/
def run_tools_on_chunk (splitter : String → Nat → List (String × Nat))
    (oracle : ToolOracle) (kw : Kwargs) (pd_work g : String) (tools : List String)
    (chunk : Nat) (pf_chunks : String) (fs : FS) :
    FS × List String × Except RunErr (List RunRow) :=
  let dns := kw.dn_tools.getD tools
  let offmap := offsets_map (splitter g chunk)
  let fs0 := fs_write fs pf_chunks []
  match tools_fold oracle kw pd_work g chunk offmap pf_chunks (tools.zip dns) ⟨fs0, [], []⟩ with
  | .ok s => (fs_remove s.fs pf_chunks, s.ws, .ok s.rows)
  | .error (s, e) => (s.fs, s.ws, .error e)

/-! ### run_tools_on_gi (driver lines 159-179) -/

/-- pandas concat over a Python list whose elements are DataFrames (some) or
None: an empty list raises (no objects to concatenate), a None element
raises a TypeError, otherwise the rows are concatenated in order. -/
def pd_concat (xs : List (Option (List RunRow))) : Except RunErr (List RunRow) :=
  if xs.isEmpty then .error .pandasNoObjects
  else if xs.any (fun x => x.isNone) then .error .pandasTypeError
  else .ok (xs.filterMap id).flatten

/-- The loop over chunk sizes in run_tools_on_gi, collecting one DataFrame
per chunk size. The scratch argument supplies the mkstemp_closed scratch
path for each (genome, chunk size). Modelled from the spec: the
num_processors > 1 branch calls run_n_per_thread
(mg_parallelization.generic_threading is not under src), which executes the
unit of work once per item and collects every result after all complete;
it therefore collects the same per-chunk DataFrames as the sequential
branch, and both branches are embedded by this one fold. -/
def gi_fold (splitter : String → Nat → List (String × Nat)) (oracle : ToolOracle)
    (scratch : String → Nat → String) (kw : Kwargs) (pd_work g : String)
    (tools : List String) :
    List Nat → FS → FS × List String × Except RunErr (List (List RunRow))
  | [], fs => (fs, [], .ok [])
  | c :: rest, fs =>
    match run_tools_on_chunk splitter oracle kw pd_work g tools c (scratch g c) fs with
    | (fs1, ws1, .ok rows) =>
      match gi_fold splitter oracle scratch kw pd_work g tools rest fs1 with
      | (fs2, ws2, .ok acc) => (fs2, ws1 ++ ws2, .ok (rows :: acc))
      | (fs2, ws2, .error e) => (fs2, ws1 ++ ws2, .error e)
    | (fs1, ws1, .error e) => (fs1, ws1, .error e)

/-- run_tools_on_gi: run every chunk size for one genome (sequentially or
thread-parallel, see gi_fold) and pd.concat the per-chunk DataFrames. -/
def run_tools_on_gi (splitter : String → Nat → List (String × Nat)) (oracle : ToolOracle)
    (scratch : String → Nat → String) (kw : Kwargs) (pd_work g : String)
    (tools : List String) (chunks : List Nat) (fs : FS) :
    FS × List String × Except RunErr (List RunRow) :=
  match gi_fold splitter oracle scratch kw pd_work g tools chunks fs with
  | (fs1, ws, .ok list_df) => (fs1, ws, pd_concat (list_df.map some))
  | (fs1, ws, .error e) => (fs1, ws, .error e)

/-! ### run_tools_on_gil (driver lines 182-185) and main (187-229) -/

/-- run_tools_on_gil: loop over the genomes of the list, calling
run_tools_on_gi on each and discarding its DataFrame. The source function
has no return statement, so its value (the PBS unit of work output) is the
Python None, reflected here by the Unit payload. -/
def run_tools_on_gil (splitter : String → Nat → List (String × Nat)) (oracle : ToolOracle)
    (scratch : String → Nat → String) (kw : Kwargs) (pd_work : String)
    (tools : List String) (chunks : List Nat) :
    List String → FS → FS × List String × Except RunErr Unit
  | [], fs => (fs, [], .ok ())
  | g :: rest, fs =>
    match run_tools_on_gi splitter oracle scratch kw pd_work g tools chunks fs with
    | (fs1, ws1, .ok _) =>
      match run_tools_on_gil splitter oracle scratch kw pd_work tools chunks rest fs1 with
      | (fs2, ws2, r) => (fs2, ws1 ++ ws2, r)
    | (fs1, ws1, .error e) => (fs1, ws1, .error e)

/-- Modelled from the spec: PBS.run (mg_parallelization.pbs is not under
src) partitions the genome list with the caller-supplied splitter
(split_gil), submits each partition as one batch job running the given
function, waits for all, and merges the collected function outputs with
merge_identity (a plain list of the outputs). Because main passes
run_tools_on_gil, each collected output is that function's return value:
None. -/
def pbs_fold (splitter : String → Nat → List (String × Nat)) (oracle : ToolOracle)
    (scratch : String → Nat → String) (kw : Kwargs) (pd_work : String)
    (tools : List String) (chunks : List Nat) :
    List (List String) → FS → FS × List String × Except RunErr (List (Option (List RunRow)))
  | [], fs => (fs, [], .ok [])
  | p :: rest, fs =>
    match run_tools_on_gil splitter oracle scratch kw pd_work tools chunks p fs with
    | (fs1, ws1, .ok ()) =>
      match pbs_fold splitter oracle scratch kw pd_work tools chunks rest fs1 with
      | (fs2, ws2, .ok acc) => (fs2, ws1 ++ ws2, .ok (none :: acc))
      | (fs2, ws2, .error e) => (fs2, ws1 ++ ws2, .error e)
    | (fs1, ws1, .error e) => (fs1, ws1, .error e)

/-- The genome-level fan-out of the non-PBS branch of main. Modelled from
the spec: run_n_per_thread over the genomes executes run_tools_on_gi once
per genome and collects every per-genome DataFrame after all complete,
embedded as a fold in input order. -/
def main_thread_fold (splitter : String → Nat → List (String × Nat)) (oracle : ToolOracle)
    (scratch : String → Nat → String) (kw : Kwargs) (pd_work : String)
    (tools : List String) (chunks : List Nat) :
    List String → FS → FS × List String × Except RunErr (List (List RunRow))
  | [], fs => (fs, [], .ok [])
  | g :: rest, fs =>
    match run_tools_on_gi splitter oracle scratch kw pd_work g tools chunks fs with
    | (fs1, ws1, .ok rows) =>
      match main_thread_fold splitter oracle scratch kw pd_work tools chunks rest fs1 with
      | (fs2, ws2, .ok acc) => (fs2, ws1 ++ ws2, .ok (rows :: acc))
      | (fs2, ws2, .error e) => (fs2, ws1 ++ ws2, .error e)
    | (fs1, ws1, .error e) => (fs1, ws1, .error e)

/-- main (lines 187-229): resolve dn_tools (defaulting to tools), check the
two lists have equal length (ValueError otherwise, before any work), then
dispatch either through PBS over partitions of the genome list or through
the in-process thread pool over the genomes, and pd.concat the collected
list into the final summary DataFrame. The part argument abstracts
split_gil, the partitioning of the genome list for batch jobs. -/
def main_run (splitter : String → Nat → List (String × Nat)) (oracle : ToolOracle)
    (scratch : String → Nat → String) (part : List String → List (List String))
    (pd_work : String) (gil tools : List String) (dn_in : Option (List String))
    (chunks : List Nat) (use_pbs : Bool) (kw0 : Kwargs) (fs : FS) :
    FS × List String × Except RunErr (List RunRow) :=
  let dns := dn_in.getD tools
  if tools.length ≠ dns.length then (fs, [], .error .valueError)
  else
    let kw := { kw0 with dn_tools := some dns }
    if use_pbs then
      match pbs_fold splitter oracle scratch kw pd_work tools chunks (part gil) fs with
      | (fs1, ws, .ok list_df) => (fs1, ws, pd_concat list_df)
      | (fs1, ws, .error e) => (fs1, ws, .error e)
    else
      match main_thread_fold splitter oracle scratch kw pd_work tools chunks gil fs with
      | (fs1, ws, .ok list_df) => (fs1, ws, pd_concat (list_df.map some))
      | (fs1, ws, .error e) => (fs1, ws, .error e)

/-! ### File-store lemmas -/

theorem fs_remove_read_ne (p q : String) (h : q ≠ p) (fs : FS) :
    fs_read (fs_remove fs p) q = fs_read fs q := by
  induction fs with
  | nil => rfl
  | cons e rest ih =>
    obtain ⟨k, c⟩ := e
    by_cases hk : k = p
    · subst hk
      simp only [fs_remove, List.filter_cons, bne_self_eq_false, ite_false, Bool.false_eq_true]
      rw [show fs_read ((k, c) :: rest) q = fs_read rest q by simp [fs_read, h]]
      exact ih
    · have hb : (k != p) = true := by simp [hk]
      simp only [fs_remove, List.filter_cons, hb, if_true]
      by_cases hq : q = k
      · simp [fs_read, hq]
      · simp only [fs_read, if_neg hq]
        exact ih

theorem fs_remove_read_self (p : String) (fs : FS) :
    fs_read (fs_remove fs p) p = none := by
  induction fs with
  | nil => rfl
  | cons e rest ih =>
    obtain ⟨k, c⟩ := e
    by_cases hk : k = p
    · subst hk
      simpa [fs_remove, List.filter_cons] using ih
    · have hb : (k != p) = true := by simp [hk]
      have hpk : p ≠ k := fun hp => hk hp.symm
      simp only [fs_remove, List.filter_cons, hb, if_true, fs_read, if_neg hpk]
      exact ih

theorem fs_write_read_self (fs : FS) (p : String) (c : List Label) :
    fs_read (fs_write fs p c) p = some c := by
  simp [fs_write, fs_read]

theorem fs_write_read_ne (fs : FS) (p q : String) (c : List Label) (h : q ≠ p) :
    fs_read (fs_write fs p c) q = fs_read fs q := by
  simp only [fs_write, fs_read, if_neg h]
  exact fs_remove_read_ne p q h fs

theorem write_labels_read_ne (fs : FS) (p q : String) (c : List Label) (h : q ≠ p) :
    fs_read (write_labels_to_file c p fs) q = fs_read fs q := by
  unfold write_labels_to_file
  by_cases hc : c.isEmpty
  · simp [hc]
  · simp only [hc, Bool.false_eq_true, ite_false]
    exact fs_write_read_ne fs p q c h

/-! ### Reconciliation lemmas -/

theorem reconcile_labels_eq_none_of_mem (m : String → Option Int) (l : Label)
    (ls : List Label) (hmem : l ∈ ls) (hnone : m l.seqname = none) :
    reconcile_labels m ls = none := by
  induction ls with
  | nil => cases hmem
  | cons a rest ih =>
    rcases List.mem_cons.mp hmem with h | h
    · subst h
      simp [reconcile_labels, reconcile_label, hnone]
    · unfold reconcile_labels
      cases hr : reconcile_label m a with
      | none => rfl
      | some a2 => rw [ih h]

theorem reconcile_labels_eq_map (m : String → Option Int) (ls : List Label)
    (h : ∀ l ∈ ls, (m l.seqname).isSome) :
    reconcile_labels m ls =
      some (ls.map (fun l => shift_label ((m l.seqname).getD 0) l)) := by
  induction ls with
  | nil => rfl
  | cons a rest ih =>
    have ha : (m a.seqname).isSome := h a (List.mem_cons_self a rest)
    obtain ⟨off, hoff⟩ := Option.isSome_iff_exists.mp ha
    have hrest := ih (fun l hl => h l (List.mem_cons_of_mem a hl))
    simp [reconcile_labels, reconcile_label, hoff, hrest]

/-! ### Dict and substring lemmas -/

theorem dict_lookup_mem_keys (m : List (String × Int)) (k : String)
    (h : (dict_lookup m k).isSome) : ∃ e ∈ m, e.1 = k := by
  induction m with
  | nil => simp [dict_lookup] at h
  | cons e2 rest ih =>
    obtain ⟨k2, v2⟩ := e2
    unfold dict_lookup at h
    cases hr : dict_lookup rest k with
    | some v3 =>
      obtain ⟨e, he, hk⟩ := ih (by rw [hr]; rfl)
      exact ⟨e, List.mem_cons_of_mem _ he, hk⟩
    | none =>
      rw [hr] at h
      by_cases hk : k = k2
      · exact ⟨(k2, v2), List.mem_cons_self _ _, hk.symm⟩
      · simp [hk] at h

theorem has_sub_of_isPrefixOf (sep l : List Char) (h : sep.isPrefixOf l = true) :
    has_sub sep l = true := by
  cases l with
  | nil => simpa [has_sub] using h
  | cons c rest => simp [has_sub, h]

theorem has_sub_append (sep a b : List Char) :
    has_sub sep (a ++ (sep ++ b)) = true := by
  induction a with
  | nil =>
    simp only [List.nil_append]
    exact has_sub_of_isPrefixOf sep (sep ++ b)
      (List.isPrefixOf_iff_prefix.mpr (List.prefix_append sep b))
  | cons c a2 ih =>
    simp [has_sub, ih]

theorem chunk_id_data (p : String) (o : Nat) :
    (chunk_id p o).data = p.data ++ (offset_sep ++ (toString o).data) := by
  have h7 : "_offset".data = offset_sep := by decide
  show (p ++ "_offset" ++ toString o).data = _
  rw [String.data_append, String.data_append, h7, List.append_assoc]

theorem has_sub_chunk_id (p : String) (o : Nat) :
    has_sub offset_sep (chunk_id p o).data = true := by
  rw [chunk_id_data]
  exact has_sub_append offset_sep p.data (toString o).data

/-- A seqname without the "_offset" substring is never a key of the offset
dict built from chunk identifiers. -/
theorem dict_lookup_offsets_none (cs : List (String × Nat)) (s : String)
    (h : has_sub offset_sep s.data = false) :
    dict_lookup (offsets_map cs) s = none := by
  cases hl : dict_lookup (offsets_map cs) s with
  | none => rfl
  | some v =>
    obtain ⟨e, he, hk⟩ := dict_lookup_mem_keys (offsets_map cs) s (by rw [hl]; rfl)
    obtain ⟨pc, _, hpc⟩ := List.mem_map.mp he
    have heq : chunk_id pc.1 pc.2 = s := by rw [← hk, ← hpc]
    have := has_sub_chunk_id pc.1 pc.2
    rw [heq, h] at this
    cases this

/-! ### Claim C4: the reconciliation rewrite -/

/-- C4 counterexample: for the synthetic chunk identifier built from the
parent seqname "a_offsetb" with offset 5 (identifier "a_offsetb_offset5",
present in the offset mapping), the code rewrites the seqname to "a"
(everything before the FIRST "_offset" occurrence), whereas stripping the
trailing "_offset5" suffix, as the claim states, would yield "a_offsetb".
The coordinates are shifted by the offset as claimed. -/
theorem reconcile_strips_first_occurrence_not_trailing :
    reconcile_labels (dict_lookup (offsets_map [("a_offsetb", 5)]))
      [⟨chunk_id "a_offsetb" 5, 1, 2⟩] = some [⟨"a", 6, 7⟩]
    ∧ strip_trailing_offset (chunk_id "a_offsetb" 5) = "a_offsetb"
    ∧ ("a" : String) ≠ "a_offsetb" :=
  ⟨by decide, by decide, by decide⟩

/-- C4 amended: for every raw prediction whose chunk identifier is present
in the offset mapping, reconciliation adds the chunk offset to both
coordinates and replaces the seqname by everything strictly before the
first "_offset" occurrence (this equals stripping the trailing
"_offset<N>" suffix whenever the parent seqname itself contains no
"_offset"); every prediction of the raw output is rewritten this way. -/
theorem reconcile_adds_offset_and_strips_first (m : String → Option Int)
    (ls : List Label) (h : ∀ l ∈ ls, (m l.seqname).isSome) :
    reconcile_labels m ls =
      some (ls.map (fun l => shift_label ((m l.seqname).getD 0) l)) :=
  reconcile_labels_eq_map m ls h

/-- C4 amended witness: the round trip of the spec, a prediction on chunk
"chr1_offset500" with left 10 and right 40 reconciles to seqname "chr1",
left 510, right 540. -/
theorem reconcile_roundtrip_chr1 :
    reconcile_labels (dict_lookup (offsets_map [("chr1", 500)]))
      [⟨"chr1_offset500", 10, 40⟩] = some [⟨"chr1", 510, 540⟩] := by
  have h := reconcile_adds_offset_and_strips_first
    (dict_lookup (offsets_map [("chr1", 500)])) [⟨"chr1_offset500", 10, 40⟩] (by decide)
  rw [h]
  decide

/-! ### Claim C7: exactly-once processing and fatal missing identifiers -/

/-- C7: the reconciliation loop processes every Label of the raw output
exactly once, in order, producing exactly the pointwise rewrite of the
input list; and when any Label's chunk identifier is absent from the
offset mapping the loop raises (none, the Python KeyError) instead of
skipping or tolerating that Label. -/
theorem reconcile_exactly_once_and_fatal_on_missing (m : String → Option Int)
    (ls : List Label) :
    ((∀ l ∈ ls, (m l.seqname).isSome) →
      reconcile_labels m ls =
        some (ls.map (fun l => shift_label ((m l.seqname).getD 0) l)))
    ∧ ((∃ l ∈ ls, m l.seqname = none) → reconcile_labels m ls = none) := by
  constructor
  · exact fun h => reconcile_labels_eq_map m ls h
  · rintro ⟨l, hmem, hnone⟩
    exact reconcile_labels_eq_none_of_mem m l ls hmem hnone

/-- C7 witness: on a mapped identifier the loop rewrites the single label
once; on an unmapped identifier it raises. -/
theorem reconcile_exactly_once_and_fatal_witness :
    reconcile_labels (dict_lookup (offsets_map [("c", 3)])) [⟨"c_offset3", 1, 2⟩]
      = some [⟨"c", 4, 5⟩]
    ∧ reconcile_labels (dict_lookup (offsets_map [("c", 3)])) [⟨"zzz", 1, 2⟩] = none := by
  constructor
  · have h := (reconcile_exactly_once_and_fatal_on_missing
      (dict_lookup (offsets_map [("c", 3)])) [⟨"c_offset3", 1, 2⟩]).1 (by decide)
    rw [h]
    decide
  · exact (reconcile_exactly_once_and_fatal_on_missing
      (dict_lookup (offsets_map [("c", 3)])) [⟨"zzz", 1, 2⟩]).2
      ⟨⟨"zzz", 1, 2⟩, by decide, by decide⟩

/-! ### Claim C8: no double shift on already-reconciled predictions -/

/-- C8: running the reconciliation step on a prediction whose identifier
carries no "_offset" substring (already-reconciled coordinates) raises the
KeyError (none) against any offset mapping built from synthetic chunk
identifiers: it never adds an offset a second time. -/
theorem reconcile_no_suffix_raises (cs : List (String × Nat)) (ls : List Label)
    (l : Label) (hmem : l ∈ ls) (h : has_sub offset_sep l.seqname.data = false) :
    reconcile_labels (dict_lookup (offsets_map cs)) ls = none :=
  reconcile_labels_eq_none_of_mem _ l ls hmem (dict_lookup_offsets_none cs l.seqname h)

/-- C8 witness: re-running reconciliation on the already-reconciled
prediction seqname "chr1", left 510, right 540 raises rather than shifting
again. -/
theorem reconcile_no_suffix_raises_witness :
    reconcile_labels (dict_lookup (offsets_map [("chr1", 500)]))
      [⟨"chr1", 510, 540⟩] = none :=
  reconcile_no_suffix_raises [("chr1", 500)] [⟨"chr1", 510, 540⟩] ⟨"chr1", 510, 540⟩
    (by decide) (by decide)

/-! ### Claim C9: skip_if_exists short-circuit -/

/-- C9 counterexample: for tool kind "mgm2" and an option set with
skip_if_exists true but no model path, a call whose output prediction file
already exists raises the configuration error instead of returning the
claimed no-op success. -/
theorem skip_if_exists_not_noop_without_model :
    run_tool_on_chunk "mgm2" "/seq.fa" "/out/p.gff" { skip_if_exists := true }
      (fun _ _ => none) [("/out/p.gff", [⟨"keep", 3, 4⟩])]
      = .error (.missingValue "pf_mgm2_mod")
    ∧ fs_isFile [("/out/p.gff", [⟨"keep", 3, 4⟩])] "/out/p.gff" = true :=
  ⟨rfl, rfl⟩

/-- C9 amended: for every tool kind whose required model path is configured
(pf_mgm2_mod for "mgm2", pf_mgm_mod for "mgm"; no model is required for
the other kinds), when skip_if_exists is set and the output prediction
path already exists as a file, run_tool_on_chunk returns a no-op success:
the result is ok with the file store returned unchanged (for any oracle,
so no tool invocation happens and the pre-existing content is untouched)
and no warning. -/
theorem skip_if_exists_is_noop (tool pf_sequences pf_prediction : String)
    (kw : Kwargs) (oracle : ToolOracle) (fs : FS)
    (hskip : kw.skip_if_exists = true)
    (hfile : fs_isFile fs pf_prediction = true)
    (hmgm2 : tool = "mgm2" → kw.pf_mgm2_mod ≠ none)
    (hmgm : tool = "mgm" → kw.pf_mgm_mod ≠ none) :
    run_tool_on_chunk tool pf_sequences pf_prediction kw oracle fs = .ok (fs, []) := by
  have h1 : ¬(tool = "mgm2" ∧ kw.pf_mgm2_mod = none) := fun h => hmgm2 h.1 h.2
  have h2 : ¬(tool = "mgm" ∧ kw.pf_mgm_mod = none) := fun h => hmgm h.1 h.2
  unfold run_tool_on_chunk
  rw [if_neg h1, if_neg h2, if_pos (by rw [hskip, hfile]; rfl)]

/-- C9 witness: a pre-seeded output file with a sentinel label is left
untouched and ok is returned, for an oracle that would have produced
different content. -/
theorem skip_if_exists_is_noop_witness :
    run_tool_on_chunk "mgm2" "/tmp/s" "/w/p.gff"
      { skip_if_exists := true, pf_mgm2_mod := some "/m.mod" }
      (fun _ _ => some [⟨"x", 0, 1⟩]) [("/w/p.gff", [⟨"sentinel", 1, 2⟩])]
      = .ok ([("/w/p.gff", [⟨"sentinel", 1, 2⟩])], []) :=
  skip_if_exists_is_noop "mgm2" "/tmp/s" "/w/p.gff"
    { skip_if_exists := true, pf_mgm2_mod := some "/m.mod" }
    (fun _ _ => some [⟨"x", 0, 1⟩]) [("/w/p.gff", [⟨"sentinel", 1, 2⟩])]
    rfl (by decide) (fun _ => by decide) (fun h => absurd h (by decide))

/-! ### Claim C10: the model check precedes the skip check -/

/-- C10: in run_tool_on_chunk the required-model lookup precedes the
skip_if_exists short-circuit: for tool "mgm2" without pf_mgm2_mod
(respectively "mgm" without pf_mgm_mod) the call raises the configuration
error even when skip_if_exists is set and the output file already exists,
so the no-op-success path is unreachable with a missing model path. -/
theorem model_check_precedes_skip (pf_sequences pf_prediction : String)
    (kw : Kwargs) (oracle : ToolOracle) (fs : FS)
    (_hskip : kw.skip_if_exists = true)
    (_hfile : fs_isFile fs pf_prediction = true) :
    (kw.pf_mgm2_mod = none →
      run_tool_on_chunk "mgm2" pf_sequences pf_prediction kw oracle fs
        = .error (.missingValue "pf_mgm2_mod"))
    ∧ (kw.pf_mgm_mod = none →
      run_tool_on_chunk "mgm" pf_sequences pf_prediction kw oracle fs
        = .error (.missingValue "pf_mgm_mod")) := by
  constructor
  · intro h
    unfold run_tool_on_chunk
    rw [if_pos ⟨rfl, h⟩]
  · intro h
    unfold run_tool_on_chunk
    rw [if_neg (by rintro ⟨h1, _⟩; exact absurd h1 (by decide)), if_pos ⟨rfl, h⟩]

/-- C10 witness: with skip_if_exists set and the output file present but
the model path absent, both tools raise instead of taking the no-op path. -/
theorem model_check_precedes_skip_witness :
    run_tool_on_chunk "mgm2" "/tmp/s" "/w/p.gff" { skip_if_exists := true }
      (fun _ _ => none) [("/w/p.gff", [])] = .error (.missingValue "pf_mgm2_mod")
    ∧ run_tool_on_chunk "mgm" "/tmp/s" "/w/p.gff" { skip_if_exists := true }
      (fun _ _ => none) [("/w/p.gff", [])] = .error (.missingValue "pf_mgm_mod") :=
  ⟨(model_check_precedes_skip "/tmp/s" "/w/p.gff" { skip_if_exists := true }
      (fun _ _ => none) [("/w/p.gff", [])] rfl (by decide)).1 rfl,
   (model_check_precedes_skip "/tmp/s" "/w/p.gff" { skip_if_exists := true }
      (fun _ _ => none) [("/w/p.gff", [])] rfl (by decide)).2 rfl⟩

/-! ### The tool loop under well-behaved steps -/

/-- Conditions under which one iteration of the tool loop does not raise:
the tool is one of the five known kinds, its required model path is
configured, and any raw output the oracle produces reconciles (every
seqname of it is a key of the offset dict). The oracle may still fail
(none): that is the recovered CalledProcessError path. -/
def good_step (kw : Kwargs) (oracle : ToolOracle) (pf_chunks : String)
    (offmap : List (String × Int)) (t : String) : Prop :=
  (t = "gms2" ∨ t = "prodigal" ∨ t = "mprodigal" ∨ t = "mgm2" ∨ t = "mgm")
  ∧ (t = "mgm2" → kw.pf_mgm2_mod ≠ none)
  ∧ (t = "mgm" → kw.pf_mgm_mod ≠ none)
  ∧ (∀ out, oracle t pf_chunks = some out →
      ∀ l ∈ out, (dict_lookup offmap l.seqname).isSome)

theorem run_tool_on_chunk_good (t pf_chunks pf_prediction : String) (kw : Kwargs)
    (oracle : ToolOracle) (fs : FS)
    (hknown : t = "gms2" ∨ t = "prodigal" ∨ t = "mprodigal" ∨ t = "mgm2" ∨ t = "mgm")
    (hm2 : t = "mgm2" → kw.pf_mgm2_mod ≠ none)
    (hm : t = "mgm" → kw.pf_mgm_mod ≠ none)
    (habs : fs_read fs pf_prediction = none) :
    run_tool_on_chunk t pf_chunks pf_prediction kw oracle fs =
      match oracle t pf_chunks with
      | some out => .ok (fs_write fs pf_prediction out, [])
      | none => .ok (fs, [warn_msg t pf_chunks]) := by
  have h1 : ¬(t = "mgm2" ∧ kw.pf_mgm2_mod = none) := fun h => hm2 h.1 h.2
  have h2 : ¬(t = "mgm" ∧ kw.pf_mgm_mod = none) := fun h => hm h.1 h.2
  have h3 : (kw.skip_if_exists && fs_isFile fs pf_prediction) ≠ true := by
    rw [fs_isFile, habs]
    simp
  unfold run_tool_on_chunk
  rw [if_neg h1, if_neg h2, if_neg h3, if_pos hknown]

/-- Loop invariant under good steps: the loop over zip(tools, dn_tools)
completes without raising, appends exactly one summary row per pair in
input order, writes only at the pairs' own prediction paths, only extends
the warning log, and for every pair whose external tool failed it logs the
failure warning and leaves that pair's prediction path absent. -/
theorem tools_fold_good (oracle : ToolOracle) (kw : Kwargs) (pd_work g : String)
    (chunk : Nat) (offmap : List (String × Int)) (pf_chunks : String)
    (tds : List (String × String)) (s : LoopSt)
    (hgood : ∀ td ∈ tds, good_step kw oracle pf_chunks offmap td.1)
    (habs : ∀ td ∈ tds, fs_read s.fs (pred_path pd_work g chunk td.2) = none)
    (hnd : (tds.map fun td => pred_path pd_work g chunk td.2).Nodup) :
    ∃ s2, tools_fold oracle kw pd_work g chunk offmap pf_chunks tds s = .ok s2
      ∧ s2.rows = s.rows
          ++ tds.map (fun td => ⟨g, td.1, chunk, pred_path pd_work g chunk td.2⟩)
      ∧ (∃ ext, s2.ws = s.ws ++ ext)
      ∧ (∀ p, (∀ td ∈ tds, p ≠ pred_path pd_work g chunk td.2) →
          fs_read s2.fs p = fs_read s.fs p)
      ∧ (∀ td ∈ tds, oracle td.1 pf_chunks = none →
          warn_msg td.1 pf_chunks ∈ s2.ws
          ∧ fs_read s2.fs (pred_path pd_work g chunk td.2) = none) := by
  induction tds generalizing s with
  | nil =>
    refine ⟨s, rfl, by simp, ⟨[], by simp⟩, fun p _ => rfl, by simp⟩
  | cons td rest ih =>
    obtain ⟨t, dn⟩ := td
    obtain ⟨hk, hm2, hm, hrec⟩ := hgood (t, dn) (List.mem_cons_self _ _)
    have habs0 : fs_read s.fs (pred_path pd_work g chunk dn) = none :=
      habs (t, dn) (List.mem_cons_self _ _)
    rw [List.map_cons, List.nodup_cons] at hnd
    obtain ⟨hP, hndr⟩ := hnd
    have hstep := run_tool_on_chunk_good t pf_chunks (pred_path pd_work g chunk dn)
      kw oracle s.fs hk hm2 hm habs0
    cases horc : oracle t pf_chunks with
    | none =>
      rw [horc] at hstep
      have hread : read_labels_from_file s.fs (pred_path pd_work g chunk dn) = [] := by
        rw [read_labels_from_file, habs0]
        rfl
      have hrecon :
          reconcile_labels (dict_lookup offmap)
            (read_labels_from_file s.fs (pred_path pd_work g chunk dn)) = some [] := by
        rw [hread]
        rfl
      obtain ⟨s2, hfold, hrows, ⟨ext, hws⟩, hframe, hfail⟩ :=
        ih (⟨s.fs, s.ws ++ [warn_msg t pf_chunks],
              s.rows ++ [⟨g, t, chunk, pred_path pd_work g chunk dn⟩]⟩ : LoopSt)
          (fun td2 h2 => hgood td2 (List.mem_cons_of_mem _ h2))
          (fun td2 h2 => habs td2 (List.mem_cons_of_mem _ h2))
          hndr
      refine ⟨s2, ?_, ?_, ⟨[warn_msg t pf_chunks] ++ ext, ?_⟩, ?_, ?_⟩
      · rw [tools_fold, hstep]
        simpa [hrecon, write_labels_to_file] using hfold
      · rw [hrows]
        simp
      · rw [hws]
        simp
      · intro p hp
        rw [hframe p (fun td2 h2 => hp td2 (List.mem_cons_of_mem _ h2))]
      · intro td2 h2 hfail2
        rcases List.mem_cons.mp h2 with he | he
        · refine ⟨?_, ?_⟩
          · rw [hws]
            cases he
            simp
          · cases he
            rw [hframe _ (fun td3 h3 hpe => hP (by rw [hpe] at *; exact List.mem_map_of_mem _ h3))]
            exact habs0
        · exact hfail td2 he hfail2
    | some out =>
      rw [horc] at hstep
      have hall : ∀ l ∈ out, (dict_lookup offmap l.seqname).isSome := hrec out horc
      have hread :
          read_labels_from_file (fs_write s.fs (pred_path pd_work g chunk dn) out)
            (pred_path pd_work g chunk dn) = out := by
        rw [read_labels_from_file, fs_write_read_self]
        rfl
      have hrecon := reconcile_labels_eq_map (dict_lookup offmap) out hall
      obtain ⟨s2, hfold, hrows, ⟨ext, hws⟩, hframe, hfail⟩ :=
        ih (⟨write_labels_to_file
                (out.map (fun l => shift_label ((dict_lookup offmap l.seqname).getD 0) l))
                (pred_path pd_work g chunk dn)
                (fs_write s.fs (pred_path pd_work g chunk dn) out),
              s.ws ++ [],
              s.rows ++ [⟨g, t, chunk, pred_path pd_work g chunk dn⟩]⟩ : LoopSt)
          (fun td2 h2 => hgood td2 (List.mem_cons_of_mem _ h2))
          (fun td2 h2 => by
            have hne : pred_path pd_work g chunk td2.2 ≠ pred_path pd_work g chunk dn :=
              fun hpe => hP (by rw [← hpe]; exact List.mem_map_of_mem _ h2)
            rw [write_labels_read_ne _ _ _ _ hne, fs_write_read_ne _ _ _ _ hne]
            exact habs td2 (List.mem_cons_of_mem _ h2))
          hndr
      refine ⟨s2, ?_, ?_, ⟨ext, ?_⟩, ?_, ?_⟩
      · rw [tools_fold, hstep]
        simpa [hread, hrecon] using hfold
      · rw [hrows]
        simp
      · rw [hws]
        simp
      · intro p hp
        have hne : p ≠ pred_path pd_work g chunk dn := hp (t, dn) (List.mem_cons_self _ _)
        rw [hframe p (fun td2 h2 => hp td2 (List.mem_cons_of_mem _ h2))]
        show fs_read (write_labels_to_file _ _ _) p = fs_read s.fs p
        rw [write_labels_read_ne _ _ _ _ hne, fs_write_read_ne _ _ _ _ hne]
      · intro td2 h2 hfail2
        rcases List.mem_cons.mp h2 with he | he
        · exfalso
          cases he
          rw [horc] at hfail2
          cases hfail2
        · exact hfail td2 he hfail2

/-! ### Claim C2: external-tool failure is recovered locally -/

/-- C2: for any pair (t, dn) of the tool loop whose external predictor
exits non-zero (oracle none), provided every tool of the list is a known
kind with its required model configured, successful outputs reconcile, the
prediction paths are fresh and pairwise distinct and distinct from the
scratch path: the run completes (ok, one row per pair, so the remaining
tools were processed rather than aborted), the warning naming the failed
tool and its input is logged, and no prediction file exists for the failed
pair. -/
theorem tool_failure_recovered (splitter : String → Nat → List (String × Nat))
    (oracle : ToolOracle) (kw : Kwargs) (pd_work g : String) (tools : List String)
    (chunk : Nat) (pf_chunks : String) (fs : FS) (t dn : String)
    (hgood : ∀ td ∈ tools.zip (kw.dn_tools.getD tools),
      good_step kw oracle pf_chunks (offsets_map (splitter g chunk)) td.1)
    (habs : ∀ td ∈ tools.zip (kw.dn_tools.getD tools),
      fs_read fs (pred_path pd_work g chunk td.2) = none)
    (hnd : ((tools.zip (kw.dn_tools.getD tools)).map
      (fun td => pred_path pd_work g chunk td.2)).Nodup)
    (hscr : ∀ td ∈ tools.zip (kw.dn_tools.getD tools),
      pred_path pd_work g chunk td.2 ≠ pf_chunks)
    (hmem : (t, dn) ∈ tools.zip (kw.dn_tools.getD tools))
    (hfailtool : oracle t pf_chunks = none) :
    ∃ fs2 ws rows,
      run_tools_on_chunk splitter oracle kw pd_work g tools chunk pf_chunks fs
        = (fs2, ws, .ok rows)
      ∧ rows.length = (tools.zip (kw.dn_tools.getD tools)).length
      ∧ warn_msg t pf_chunks ∈ ws
      ∧ fs_read fs2 (pred_path pd_work g chunk dn) = none := by
  have habs0 : ∀ td ∈ tools.zip (kw.dn_tools.getD tools),
      fs_read (fs_write fs pf_chunks []) (pred_path pd_work g chunk td.2) = none := by
    intro td htd
    rw [fs_write_read_ne _ _ _ _ (hscr td htd)]
    exact habs td htd
  obtain ⟨s2, hfold, hrows, _, _, hfail⟩ :=
    tools_fold_good oracle kw pd_work g chunk (offsets_map (splitter g chunk)) pf_chunks
      (tools.zip (kw.dn_tools.getD tools)) ⟨fs_write fs pf_chunks [], [], []⟩
      hgood habs0 hnd
  obtain ⟨hwarn, hnofile⟩ := hfail (t, dn) hmem hfailtool
  refine ⟨fs_remove s2.fs pf_chunks, s2.ws, s2.rows, ?_, ?_, hwarn, ?_⟩
  · simp only [run_tools_on_chunk]
    rw [hfold]
  · rw [hrows]
    simp
  · rw [fs_remove_read_ne _ _ (hscr (t, dn) hmem)]
    exact hnofile

/-- C2 witness: a concrete two-tool run in which gms2 fails and prodigal
succeeds completes with both rows, logs the gms2 warning, and leaves no
gms2 prediction file. -/
theorem tool_failure_recovered_witness :
    ∃ fs2 ws rows,
      run_tools_on_chunk (fun _ _ => [("chr1", 0)])
        (fun t _ => if t = "prodigal" then some [⟨"chr1_offset0", 10, 20⟩] else none)
        {} "/w" "G" ["gms2", "prodigal"] 50 "/tmp/s" [] = (fs2, ws, .ok rows)
      ∧ rows.length = 2
      ∧ warn_msg "gms2" "/tmp/s" ∈ ws
      ∧ fs_read fs2 (pred_path "/w" "G" 50 "gms2") = none := by
  have h := tool_failure_recovered (fun _ _ => [("chr1", 0)])
    (fun t _ => if t = "prodigal" then some [⟨"chr1_offset0", 10, 20⟩] else none)
    {} "/w" "G" ["gms2", "prodigal"] 50 "/tmp/s" [] "gms2" "gms2"
    (by
      intro td htd
      rcases List.mem_cons.mp htd with he | htd2
      · subst he
        refine ⟨by decide, fun h2 => absurd h2 (by decide), fun h2 => absurd h2 (by decide), ?_⟩
        intro out hout
        have hout2 : (none : Option (List Label)) = some out := hout
        cases hout2
      · rcases List.mem_cons.mp htd2 with he | h0
        · subst he
          refine ⟨by decide, fun h2 => absurd h2 (by decide), fun h2 => absurd h2 (by decide), ?_⟩
          intro out hout
          have hout2 : some [(⟨"chr1_offset0", 10, 20⟩ : Label)] = some out := hout
          cases hout2
          decide
        · simp at h0)
    (fun td _ => rfl) (by decide) (by decide) (by decide) (by decide)
  obtain ⟨fs2, ws, rows, h1, h2, h3, h4⟩ := h
  exact ⟨fs2, ws, rows, h1, h2, h3, h4⟩

/-! ### Claim C3: failures and the final summary table -/

/-- C3 counterexample: with gms2 failing on every chunk (warnings logged)
and prodigal succeeding, the summary produced by run_tools_on_gi for
genome G over chunk sizes 50000 and 100000 contains rows for ALL four
(tool, chunk) combinations, including the failed (gms2, 50000) and
(gms2, 100000) ones: external-tool failures are not visible as missing
rows, contradicting the claim; the prodigal rows are present as well. -/
theorem summary_row_present_despite_failure :
    (fun t (_ : String) =>
        if t = "prodigal" then some [(⟨"chr1_offset0", 10, 20⟩ : Label)] else none)
      "gms2" "/scr/G_50000" = none
    ∧ (run_tools_on_gi (fun _ _ => [("chr1", 0)])
        (fun t _ => if t = "prodigal" then some [⟨"chr1_offset0", 10, 20⟩] else none)
        (fun g c => "/scr/" ++ g ++ "_" ++ toString c) {} "/w" "G" ["gms2", "prodigal"]
        [50000, 100000] []).2.2
      = .ok [⟨"G", "gms2", 50000, pred_path "/w" "G" 50000 "gms2"⟩,
             ⟨"G", "prodigal", 50000, pred_path "/w" "G" 50000 "prodigal"⟩,
             ⟨"G", "gms2", 100000, pred_path "/w" "G" 100000 "gms2"⟩,
             ⟨"G", "prodigal", 100000, pred_path "/w" "G" 100000 "prodigal"⟩] :=
  ⟨rfl, rfl⟩

/-- C3 amended: the summary over one (genome, chunk size) contains exactly
one row per (tool, dn) pair of the loop, in input order, INCLUDING pairs
whose external tool failed; a failure is visible only as a warning log
line plus a missing prediction file, and one pair's failure does not
prevent any other pair's row from appearing. -/
theorem summary_rows_complete (splitter : String → Nat → List (String × Nat))
    (oracle : ToolOracle) (kw : Kwargs) (pd_work g : String) (tools : List String)
    (chunk : Nat) (pf_chunks : String) (fs : FS)
    (hgood : ∀ td ∈ tools.zip (kw.dn_tools.getD tools),
      good_step kw oracle pf_chunks (offsets_map (splitter g chunk)) td.1)
    (habs : ∀ td ∈ tools.zip (kw.dn_tools.getD tools),
      fs_read fs (pred_path pd_work g chunk td.2) = none)
    (hnd : ((tools.zip (kw.dn_tools.getD tools)).map
      (fun td => pred_path pd_work g chunk td.2)).Nodup)
    (hscr : ∀ td ∈ tools.zip (kw.dn_tools.getD tools),
      pred_path pd_work g chunk td.2 ≠ pf_chunks) :
    ∃ fs2 ws,
      run_tools_on_chunk splitter oracle kw pd_work g tools chunk pf_chunks fs
        = (fs2, ws, .ok ((tools.zip (kw.dn_tools.getD tools)).map
            (fun td => ⟨g, td.1, chunk, pred_path pd_work g chunk td.2⟩))) := by
  have habs0 : ∀ td ∈ tools.zip (kw.dn_tools.getD tools),
      fs_read (fs_write fs pf_chunks []) (pred_path pd_work g chunk td.2) = none := by
    intro td htd
    rw [fs_write_read_ne _ _ _ _ (hscr td htd)]
    exact habs td htd
  obtain ⟨s2, hfold, hrows, _, _, _⟩ :=
    tools_fold_good oracle kw pd_work g chunk (offsets_map (splitter g chunk)) pf_chunks
      (tools.zip (kw.dn_tools.getD tools)) ⟨fs_write fs pf_chunks [], [], []⟩
      hgood habs0 hnd
  refine ⟨fs_remove s2.fs pf_chunks, s2.ws, ?_⟩
  simp only [run_tools_on_chunk]
  rw [hfold]
  show (fs_remove s2.fs pf_chunks, s2.ws, Except.ok s2.rows) = _
  rw [hrows]
  simp

/-- C3 amended witness: the two-tool run with gms2 failing returns exactly
one row per pair, the failed pair included. -/
theorem summary_rows_complete_witness :
    ∃ fs2 ws,
      run_tools_on_chunk (fun _ _ => [("chr1", 0)])
        (fun t _ => if t = "prodigal" then some [⟨"chr1_offset0", 10, 20⟩] else none)
        {} "/w" "G" ["gms2", "prodigal"] 50 "/tmp/s" []
        = (fs2, ws, .ok [⟨"G", "gms2", 50, pred_path "/w" "G" 50 "gms2"⟩,
                         ⟨"G", "prodigal", 50, pred_path "/w" "G" 50 "prodigal"⟩]) := by
  have h := summary_rows_complete (fun _ _ => [("chr1", 0)])
    (fun t _ => if t = "prodigal" then some [⟨"chr1_offset0", 10, 20⟩] else none)
    {} "/w" "G" ["gms2", "prodigal"] 50 "/tmp/s" []
    (by
      intro td htd
      rcases List.mem_cons.mp htd with he | htd2
      · subst he
        refine ⟨by decide, fun h2 => absurd h2 (by decide), fun h2 => absurd h2 (by decide), ?_⟩
        intro out hout
        have hout2 : (none : Option (List Label)) = some out := hout
        cases hout2
      · rcases List.mem_cons.mp htd2 with he | h0
        · subst he
          refine ⟨by decide, fun h2 => absurd h2 (by decide), fun h2 => absurd h2 (by decide), ?_⟩
          intro out hout
          have hout2 : some [(⟨"chr1_offset0", 10, 20⟩ : Label)] = some out := hout
          cases hout2
          decide
        · simp at h0)
    (fun td _ => rfl) (by decide) (by decide)
  obtain ⟨fs2, ws, h1⟩ := h
  exact ⟨fs2, ws, h1⟩

/-! ### Claim C6: scratch-file cleanup -/

/-- C6 counterexample: on the fatal exit path of run_tools_on_chunk (here
tool "mgm2" with its model path missing raises inside the loop), remove_p
is skipped because it is not in a finally block, and the scratch
chunk-sequence file "/tmp/s" survives the unit of work. -/
theorem scratch_file_leaks_on_fatal_error :
    run_tools_on_chunk (fun _ _ => [("chr1", 0)]) (fun _ _ => none) {} "/w" "G"
      ["mgm2"] 50 "/tmp/s" []
      = ([("/tmp/s", [])], [], .error (.missingValue "pf_mgm2_mod"))
    ∧ fs_isFile [("/tmp/s", [])] "/tmp/s" = true :=
  ⟨rfl, rfl⟩

/-- C6 amended: whenever the unit of work completes normally — which
includes every run whose external tool invocations fail, those being
recovered locally — the scratch chunk file is removed before
run_tools_on_chunk returns; on fatal-error exits (missing model path,
unknown tool kind, offset-map KeyError) the exception propagates before
remove_p and the scratch file is left behind. -/
theorem scratch_removed_on_ok (splitter : String → Nat → List (String × Nat))
    (oracle : ToolOracle) (kw : Kwargs) (pd_work g : String) (tools : List String)
    (chunk : Nat) (pf_chunks : String) (fs fs2 : FS) (ws : List String)
    (rows : List RunRow)
    (h : run_tools_on_chunk splitter oracle kw pd_work g tools chunk pf_chunks fs
      = (fs2, ws, .ok rows)) :
    fs_read fs2 pf_chunks = none := by
  simp only [run_tools_on_chunk] at h
  cases hf : tools_fold oracle kw pd_work g chunk (offsets_map (splitter g chunk))
      pf_chunks (tools.zip (kw.dn_tools.getD tools))
      ⟨fs_write fs pf_chunks [], [], []⟩ with
  | ok s =>
    rw [hf] at h
    have h1 : fs_remove s.fs pf_chunks = fs2 := congrArg Prod.fst h
    rw [← h1]
    exact fs_remove_read_self pf_chunks s.fs
  | error se =>
    obtain ⟨s, e⟩ := se
    rw [hf] at h
    have h3 : (Except.error e : Except RunErr (List RunRow)) = Except.ok rows :=
      congrArg (fun x => x.2.2) h
    exact absurd h3 (by simp)

/-- C6 amended witness: a run whose only tool invocation fails still ends
with the scratch file removed. -/
theorem scratch_removed_on_ok_witness : fs_read ([] : FS) "/tmp/s" = none :=
  scratch_removed_on_ok (fun _ _ => [("chr1", 0)]) (fun _ _ => none) {} "/w" "G"
    ["gms2"] 50 "/tmp/s" [] [] [warn_msg "gms2" "/tmp/s"]
    [⟨"G", "gms2", 50, pred_path "/w" "G" 50 "gms2"⟩] rfl

/-! ### Claim C5: timing of configuration errors -/

/-- C5 counterexample: with tool list ["gms2", "mgm2"] and no mgm2 model
path, the run raises the configuration error only at the first mgm2
invocation: by then the genome has been chunked (the scratch file
"/tmp/s" exists) and the gms2 invocation has already run and written its
reconciled prediction file, contradicting "raised before any chunking,
tool invocation, or other work starts". -/
theorem config_error_after_work_started :
    main_run (fun _ _ => [("chr1", 0)])
      (fun t _ => if t = "gms2" then some [⟨"chr1_offset0", 10, 20⟩] else none)
      (fun _ _ => "/tmp/s") (fun gl => [gl]) "/w" ["g1"] ["gms2", "mgm2"] none [100]
      false {} []
      = ([(pred_path "/w" "g1" 100 "gms2", [⟨"chr1", 10, 20⟩]), ("/tmp/s", [])], [],
         .error (.missingValue "pf_mgm2_mod")) :=
  rfl

/-- C5 amended: the tools / dn-tools length mismatch is fatal and raised in
main before any work starts (the file store is returned untouched, no
warning is logged, and the result does not depend on the oracle); a
missing required model path is also fatal but is raised only when the
affected tool is first invoked, inside the per-chunk loop. -/
theorem config_error_timing :
    (∀ (splitter : String → Nat → List (String × Nat)) (oracle : ToolOracle)
        (scratch : String → Nat → String) (part : List String → List (List String))
        (pd_work : String) (gil tools : List String) (dn_in : Option (List String))
        (chunks : List Nat) (use_pbs : Bool) (kw0 : Kwargs) (fs : FS),
      tools.length ≠ (dn_in.getD tools).length →
      main_run splitter oracle scratch part pd_work gil tools dn_in chunks use_pbs kw0 fs
        = (fs, [], .error .valueError))
    ∧ (∀ (pf_sequences pf_prediction : String) (kw : Kwargs) (oracle : ToolOracle)
        (fs : FS),
      kw.pf_mgm2_mod = none →
      run_tool_on_chunk "mgm2" pf_sequences pf_prediction kw oracle fs
        = .error (.missingValue "pf_mgm2_mod")) := by
  constructor
  · intro splitter oracle scratch part pd_work gil tools dn_in chunks use_pbs kw0 fs h
    simp only [main_run]
    rw [if_pos h]
  · intro pf_sequences pf_prediction kw oracle fs h
    unfold run_tool_on_chunk
    rw [if_pos ⟨rfl, h⟩]

/-- C5 amended witness: a concrete mismatched pair of lists fails fast with
the store untouched, and a concrete missing mgm2 model path raises at
invocation time. -/
theorem config_error_timing_witness :
    main_run (fun _ _ => []) (fun _ _ => none) (fun _ _ => "/s") (fun gl => [gl]) "/w"
      ["g1"] ["gms2", "mgm"] (some ["only"]) [100] false {} []
      = ([], [], .error .valueError)
    ∧ run_tool_on_chunk "mgm2" "/s" "/p" {} (fun _ _ => none) []
      = .error (.missingValue "pf_mgm2_mod") :=
  ⟨config_error_timing.1 (fun _ _ => []) (fun _ _ => none) (fun _ _ => "/s")
      (fun gl => [gl]) "/w" ["g1"] ["gms2", "mgm"] (some ["only"]) [100] false {} []
      (by decide),
   config_error_timing.2 "/s" "/p" {} (fun _ _ => none) [] rfl⟩

/-! ### Claim C1: the dispatcher row-count invariant -/

/-- C1: the batch-queue strategy loses every row. With one genome, one
tool, one chunk size and a successful tool invocation producing one
reconciled prediction, the in-process strategy returns the expected one
summary row (the sum of the per-item counts), but the PBS branch raises
pandas TypeError with no rows: run_tools_on_gil has no return statement,
so each collected partition output is None even though the workers did the
work (the prediction file exists in the final store of both runs). -/
theorem pbs_strategy_drops_all_rows :
    (main_run (fun _ _ => [("chr1", 0)])
        (fun t _ => if t = "gms2" then some [⟨"chr1_offset0", 10, 20⟩] else none)
        (fun _ _ => "/tmp/s") (fun gl => [gl]) "/w" ["g1"] ["gms2"] none [100]
        true {} []).2.2
      = .error .pandasTypeError
    ∧ fs_read (main_run (fun _ _ => [("chr1", 0)])
        (fun t _ => if t = "gms2" then some [⟨"chr1_offset0", 10, 20⟩] else none)
        (fun _ _ => "/tmp/s") (fun gl => [gl]) "/w" ["g1"] ["gms2"] none [100]
        true {} []).1 (pred_path "/w" "g1" 100 "gms2") = some [⟨"chr1", 10, 20⟩]
    ∧ (main_run (fun _ _ => [("chr1", 0)])
        (fun t _ => if t = "gms2" then some [⟨"chr1_offset0", 10, 20⟩] else none)
        (fun _ _ => "/tmp/s") (fun gl => [gl]) "/w" ["g1"] ["gms2"] none [100]
        false {} []).2.2
      = .ok [⟨"g1", "gms2", 100, pred_path "/w" "g1" 100 "gms2"⟩] :=
  ⟨rfl, rfl, rfl⟩
